import Mathlib

/-!
Verification of the pdf_text_overlay core against its specification.

The Python sources are shallowly embedded: pure functions become Lean
functions over `Rat` (Python floats are modelled as exact rationals, and
every arithmetic fact checked here is exact in binary floating point at
the stated inputs as well), fallible functions (those that `raise`)
return `Option` or `Except String`, and Python strings are modelled as
Lean `String` (both are sequences of Unicode code points).
-/

namespace PdfTextOverlay

/-- Axis-aligned rectangle, from `geometry.Rect` (fields `x0 y0 x1 y1`,
derived `width`/`height`). -/
structure Rect where
  x0 : Rat
  y0 : Rat
  x1 : Rat
  y1 : Rat
deriving DecidableEq, Repr

def Rect.width (r : Rect) : Rat := r.x1 - r.x0

def Rect.height (r : Rect) : Rat := r.y1 - r.y0

/-- Embedding of `geometry.MappingConfig` (defaults are always passed
explicitly here). -/
structure MappingConfig where
  image_rect : Rect
  page_rect : Rect
  width_px : Rat
  height_px : Rat
  offset_pt : Rat × Rat
  scale_corr : Rat × Rat
  rotation : Int
  deskew : Rat
deriving DecidableEq, Repr

/-- Embedding of `geometry.Placement`. -/
structure Placement where
  anchor : Rat × Rat
  rect : Rect
  font_size : Rat
  rotate : Rat
  width_pt : Rat
  height_pt : Rat
deriving DecidableEq, Repr

/-- Embedding of `geometry.apply_rotation`.  Python's `rotation % 360` on
ints agrees with `Int.emod` (both land in `[0, 360)`); the final
`raise ValueError` branch becomes `none`. -/
def apply_rotation (point : Rat × Rat) (page_rect : Rect) (rotation : Int) :
    Option (Rat × Rat) :=
  let x := point.1
  let y := point.2
  let rot := rotation % 360
  if rot = 0 then some (x, y)
  else if rot = 90 then some (page_rect.width - y, x)
  else if rot = 180 then some (page_rect.width - x, page_rect.height - y)
  else if rot = 270 then some (y, page_rect.height - x)
  else none

/-- Embedding of `geometry.rotate_rect` (source checks `rot == 0`, `180`,
`90`, `270` in that order; the order is semantically irrelevant since the
tests are mutually exclusive). -/
def rotate_rect (rect : Rect) (page_rect : Rect) (rotation : Int) : Option Rect :=
  let rot := rotation % 360
  if rot = 0 then some rect
  else if rot = 180 then
    some ⟨page_rect.width - rect.x1, page_rect.height - rect.y1,
          page_rect.width - rect.x0, page_rect.height - rect.y0⟩
  else if rot = 90 then
    some ⟨page_rect.width - rect.y1, rect.x0,
          page_rect.width - rect.y0, rect.x1⟩
  else if rot = 270 then
    some ⟨rect.y0, page_rect.height - rect.x1,
          rect.y1, page_rect.height - rect.x0⟩
  else none

/-- The set of rotations `apply_rotation`/`rotate_rect` accept. -/
def valid_rotation (rotation : Int) : Prop :=
  rotation % 360 = 0 ∨ rotation % 360 = 90 ∨
  rotation % 360 = 180 ∨ rotation % 360 = 270

instance (rotation : Int) : Decidable (valid_rotation rotation) := by
  unfold valid_rotation; infer_instance

/-- The x-axis scale factor computed at `geometry.py` line 58. -/
def scale_x_of (config : MappingConfig) : Rat :=
  config.image_rect.width / config.width_px * config.scale_corr.1

/-- The y-axis scale factor computed at `geometry.py` line 59. -/
def scale_y_of (config : MappingConfig) : Rat :=
  config.image_rect.height / config.height_px * config.scale_corr.2

/-- Embedding of `geometry.map_bbox_to_pdf`; each `raise ValueError`
becomes `Except.error` with the source's message (the errors propagated
out of `apply_rotation`/`rotate_rect` carry their message). -/
def map_bbox_to_pdf (bbox : Rat × Rat × Rat × Rat) (baseline_ratio : Rat)
    (font_scale : Rat) (config : MappingConfig) : Except String Placement :=
  let x_px := bbox.1
  let y_px := bbox.2.1
  let w_px := bbox.2.2.1
  let h_px := bbox.2.2.2
  if config.width_px ≤ 0 ∨ config.height_px ≤ 0 then
    .error "Mapping configuration requires positive width/height in pixels."
  else
    let scale_x := scale_x_of config
    let scale_y := scale_y_of config
    if scale_x = 0 ∨ scale_y = 0 then
      .error "Scaling factors must be non-zero."
    else
      let offset_x := config.offset_pt.1
      let offset_y := config.offset_pt.2
      let x_pt := config.image_rect.x0 + x_px * scale_x + offset_x
      let y_bottom := config.image_rect.y1 - (y_px + h_px) * scale_y + offset_y
      let width_pt := max (w_px * scale_x) (1/10)
      let height_pt := max (h_px * scale_y) (1/10)
      let font_size := max (height_pt * font_scale) 2
      let baseline := y_bottom + font_size * baseline_ratio
      let rect : Rect :=
        ⟨x_pt, baseline - height_pt * (1 - baseline_ratio),
         x_pt + width_pt, baseline + height_pt * baseline_ratio⟩
      match apply_rotation (x_pt, baseline) config.page_rect config.rotation with
      | none => .error "Rotation must be 0/90/180/270 degrees."
      | some anchor =>
        match rotate_rect rect config.page_rect config.rotation with
        | none => .error "Rotation must be 0/90/270/180 degrees."
        | some rotated_rect =>
          .ok ⟨anchor, rotated_rect, font_size,
               (config.rotation : Rat) + config.deskew, width_pt, height_pt⟩

lemma apply_rotation_isSome_iff (p : Rat × Rat) (pr : Rect) (rot : Int) :
    (apply_rotation p pr rot).isSome ↔ valid_rotation rot := by
  unfold apply_rotation valid_rotation
  dsimp only
  split_ifs <;> simp_all

lemma rotate_rect_isSome_iff (r pr : Rect) (rot : Int) :
    (rotate_rect r pr rot).isSome ↔ valid_rotation rot := by
  unfold rotate_rect valid_rotation
  dsimp only
  split_ifs <;> simp_all

lemma apply_rotation_eq_none_iff (p : Rat × Rat) (pr : Rect) (rot : Int) :
    apply_rotation p pr rot = none ↔ ¬ valid_rotation rot := by
  rw [← apply_rotation_isSome_iff p pr rot, Option.not_isSome_iff_eq_none]

lemma rotate_rect_eq_none_iff (r pr : Rect) (rot : Int) :
    rotate_rect r pr rot = none ↔ ¬ valid_rotation rot := by
  rw [← rotate_rect_isSome_iff r pr rot, Option.not_isSome_iff_eq_none]

/-- Discriminator for the `Except` results of the embedded fallible
functions (`true` exactly on the `raise` paths of the source). -/
def except_is_error {α : Type} : Except String α → Bool
  | .error _ => true
  | .ok _ => false

/-- C1: evaluation of `apply_rotation` at the spec's own test points, on a
595x842 page with anchor (100, 200).  The code returns (100, 200) for
rotation 0 and (495, 642) for 180 as the spec claims, but (395, 100) for
rotation 90 (the code computes `pageWidth - y`, not the claimed
`pageHeight - y`) and (200, 742) for rotation 270 (the code computes
`pageHeight - x`, not the claimed `pageWidth - x`). -/
theorem apply_rotation_spec_points_eval :
    apply_rotation (100, 200) ⟨0, 0, 595, 842⟩ 0 = some (100, 200) ∧
    apply_rotation (100, 200) ⟨0, 0, 595, 842⟩ 90 = some (395, 100) ∧
    apply_rotation (100, 200) ⟨0, 0, 595, 842⟩ 180 = some (495, 642) ∧
    apply_rotation (100, 200) ⟨0, 0, 595, 842⟩ 270 = some (200, 742) := by
  refine ⟨?_, ?_, ?_, ?_⟩ <;>
    norm_num [apply_rotation, Rect.width, Rect.height, Prod.ext_iff]

/-- C2 (counterexample): a call of `map_bbox_to_pdf` whose pixel canvas
dimensions are positive and whose scale factors are non-zero (so that
none of the claim's error conditions holds; the clamping floors are the
positive constants 0.1 and 2.0, so the third condition never holds) still
raises, because the rotation 45 is not a multiple of 90. -/
theorem map_bbox_rotation45_error_with_conditions_absent :
    map_bbox_to_pdf (0, 0, 10, 10) (3/20) 1
        ⟨⟨0, 0, 595, 842⟩, ⟨0, 0, 595, 842⟩, 100, 100, (0, 0), (1, 1), 45, 0⟩ =
      .error "Rotation must be 0/90/180/270 degrees." ∧
    ¬ ((100 : Rat) ≤ 0 ∨ (100 : Rat) ≤ 0) ∧
    scale_x_of ⟨⟨0, 0, 595, 842⟩, ⟨0, 0, 595, 842⟩, 100, 100, (0, 0), (1, 1), 45, 0⟩ ≠ 0 ∧
    scale_y_of ⟨⟨0, 0, 595, 842⟩, ⟨0, 0, 595, 842⟩, 100, 100, (0, 0), (1, 1), 45, 0⟩ ≠ 0 := by
  refine ⟨?_, by norm_num, by norm_num [scale_x_of, Rect.width], by norm_num [scale_y_of, Rect.height]⟩
  unfold map_bbox_to_pdf
  norm_num [scale_x_of, scale_y_of, Rect.width, Rect.height, apply_rotation]

/-- C2 (amended): `map_bbox_to_pdf` raises exactly when the pixel canvas
dimensions are non-positive, when either computed axis scale factor is
zero, or when the rotation is not congruent to 0/90/180/270 modulo 360;
the "non-positive width/height after clamping" condition of the claim can
never fire because the clamping floors (0.1 pt and the 2.0 pt font floor)
are positive constants, and in particular any call with `width_px = 0`
raises while a call meeting none of these conditions returns a
`Placement` without error. -/
theorem map_bbox_to_pdf_error_iff (bbox : Rat × Rat × Rat × Rat)
    (baseline_ratio font_scale : Rat) (config : MappingConfig) :
    except_is_error (map_bbox_to_pdf bbox baseline_ratio font_scale config) = true ↔
      (config.width_px ≤ 0 ∨ config.height_px ≤ 0 ∨
       scale_x_of config = 0 ∨ scale_y_of config = 0 ∨
       ¬ valid_rotation config.rotation) := by
  unfold map_bbox_to_pdf
  dsimp only
  split_ifs with h1 h2
  · exact iff_of_true rfl (by tauto)
  · exact iff_of_true rfl (by tauto)
  · split
    · next h3 =>
      have hv := (apply_rotation_eq_none_iff _ _ _).mp h3
      exact iff_of_true rfl (by tauto)
    · next a h3 =>
      have hv : valid_rotation config.rotation := by
        have hs : (apply_rotation _ _ _).isSome := Option.isSome_iff_exists.mpr ⟨a, h3⟩
        exact (apply_rotation_isSome_iff _ _ _).mp hs
      split
      · next h4 =>
        exact absurd hv ((rotate_rect_eq_none_iff _ _ _).mp h4)
      · next rr h4 =>
        exact iff_of_false (by simp [except_is_error]) (by tauto)

/-- C3: mapping the pixel box (100, 200, 400, 50) on a 2000x3000 canvas
onto the full 595x842 page rect with baseline ratio 0.2, unit scale
correction, zero offset, rotation 0 and font scale 1 yields an anchor
whose x-coordinate is 100*595/2000 = 29.75 and a font size of
50*842/3000. -/
theorem map_bbox_example_anchor_font :
    (match map_bbox_to_pdf (100, 200, 400, 50) (1/5) 1
        ⟨⟨0, 0, 595, 842⟩, ⟨0, 0, 595, 842⟩, 2000, 3000, (0, 0), (1, 1), 0, 0⟩ with
     | .ok p => some (p.anchor.1, p.font_size)
     | .error _ => none) = some (100 * 595 / 2000, 50 * 842 / 3000) ∧
    (100 * 595 / 2000 : Rat) = 29.75 := by
  constructor
  · unfold map_bbox_to_pdf
    norm_num [scale_x_of, scale_y_of, Rect.width, Rect.height, apply_rotation,
      rotate_rect, Prod.ext_iff]
  · norm_num

/-- C10: for every rectangle satisfying the `Rect` invariant and every
rotation congruent to a multiple of 90, `rotate_rect` succeeds and the
result again satisfies `x0 ≤ x1` and `y0 ≤ y1`, for any page rectangle. -/
theorem rotate_rect_preserves_order (r pr : Rect) (rot : Int)
    (hx : r.x0 ≤ r.x1) (hy : r.y0 ≤ r.y1) (h : valid_rotation rot) :
    ∃ r', rotate_rect r pr rot = some r' ∧ r'.x0 ≤ r'.x1 ∧ r'.y0 ≤ r'.y1 := by
  rcases h with h | h | h | h
  · exact ⟨r, by simp [rotate_rect, h], hx, hy⟩
  · exact ⟨⟨pr.width - r.y1, r.x0, pr.width - r.y0, r.x1⟩,
      by simp [rotate_rect, h],
      by show pr.width - r.y1 ≤ pr.width - r.y0; linarith, hx⟩
  · exact ⟨⟨pr.width - r.x1, pr.height - r.y1, pr.width - r.x0, pr.height - r.y0⟩,
      by simp [rotate_rect, h],
      by show pr.width - r.x1 ≤ pr.width - r.x0; linarith,
      by show pr.height - r.y1 ≤ pr.height - r.y0; linarith⟩
  · exact ⟨⟨r.y0, pr.height - r.x1, r.y1, pr.height - r.x0⟩,
      by simp [rotate_rect, h], hy,
      by show pr.height - r.x1 ≤ pr.height - r.x0; linarith⟩

/-- C10 witness: the invariant theorem applied at a concrete rectangle,
page and rotation. -/
theorem rotate_rect_preserves_order_witness :
    (0 : Rat) ≤ 3 ∧ (1 : Rat) ≤ 7 ∧ valid_rotation 90 ∧
    ∃ r', rotate_rect ⟨0, 1, 3, 7⟩ ⟨0, 0, 595, 842⟩ 90 = some r' ∧
      r'.x0 ≤ r'.x1 ∧ r'.y0 ≤ r'.y1 :=
  ⟨by norm_num, by norm_num, by decide,
   rotate_rect_preserves_order ⟨0, 1, 3, 7⟩ ⟨0, 0, 595, 842⟩ 90
     (by norm_num) (by norm_num) (by decide)⟩

/-! Text utilities, from `text_utils.py`.  Python strings are sequences of
Unicode code points, as is `String.data`; `str.isspace` is modelled by the
Unicode whitespace code points below, and `str.islower` on the first
character by `Char.isLower` (the ASCII case, which is all the claims
exercise; which lines merge is a parameter of the structural theorems, so
nothing below depends on the exact case predicate). -/

/-- The code points Python's `str.isspace` accepts (Unicode whitespace
plus the ASCII file/group/record/unit separators). -/
def pyIsSpace (c : Char) : Bool :=
  [0x09, 0x0a, 0x0b, 0x0c, 0x0d, 0x1c, 0x1d, 0x1e, 0x1f, 0x20, 0x85, 0xa0,
   0x1680, 0x2000, 0x2001, 0x2002, 0x2003, 0x2004, 0x2005, 0x2006, 0x2007,
   0x2008, 0x2009, 0x200a, 0x2028, 0x2029, 0x202f, 0x205f, 0x3000].contains c.toNat

/-- Embedding of `text_utils.is_cjk` (on a single character; the Python
function takes a one-character string and `ord` of the empty string
raises, which the `Option Char` plumbing below captures). -/
def is_cjk (c : Char) : Bool :=
  (0x4E00 ≤ c.toNat && c.toNat ≤ 0x9FFF) ||
  (0x3400 ≤ c.toNat && c.toNat ≤ 0x4DBF) ||
  (0x20000 ≤ c.toNat && c.toNat ≤ 0x2CEAF) ||
  (0xF900 ≤ c.toNat && c.toNat ≤ 0xFAFF)

/-- The character walk of `text_utils._trim_cjk_spaces`: `text` is the
whole original string (the source indexes `text[idx-1]`/`text[idx+1]`),
`idx` the position of the head of the remaining suffix.  A whitespace
character at position 0 makes the source call `ord("")` (a `TypeError`,
here `Except.error`); so does a trailing whitespace whose predecessor is
a CJK character, because Python's `and` short-circuit only reaches
`is_cjk(next_char)` when `is_cjk(prev_char)` is true. -/
def trim_go (text : List Char) : Nat → List Char → Except Unit (List Char)
  | _, [] => .ok []
  | idx, c :: rest =>
    if pyIsSpace c then
      match (if idx = 0 then none else text[idx - 1]?) with
      | none => .error ()
      | some p =>
        if is_cjk p then
          match text[idx + 1]? with
          | none => .error ()
          | some n =>
            if is_cjk n then trim_go text (idx + 1) rest
            else Except.map (fun r => c :: r) (trim_go text (idx + 1) rest)
        else Except.map (fun r => c :: r) (trim_go text (idx + 1) rest)
    else Except.map (fun r => c :: r) (trim_go text (idx + 1) rest)

/-- Embedding of `text_utils._trim_cjk_spaces`. -/
def trim_cjk_spaces (s : String) : Except Unit String :=
  if s = "" then .ok s
  else Except.map String.mk (trim_go s.data 0 s.data)

/-- Written from the spec's words: a character is removed exactly when it
is whitespace and its immediate predecessor and successor in the original
string are both CJK ideographs. -/
def removable (text : List Char) (idx : Nat) (c : Char) : Bool :=
  pyIsSpace c &&
    (match (if idx = 0 then none else text[idx - 1]?) with
     | none => false
     | some p => is_cjk p) &&
    (match text[idx + 1]? with
     | none => false
     | some n => is_cjk n)

/-- The spec-side filter: keep every character that is not `removable`. -/
def spec_cjk_filter (s : String) : String :=
  String.mk ((s.data.enum.filter (fun p => !(removable s.data p.1 p.2))).map Prod.snd)

/-- One traversal step of `_trim_cjk_spaces` avoids the `ord("")` crash:
either the character is not whitespace, or it has a predecessor that is
either non-CJK (short-circuit) or followed by an existing successor. -/
def step_safe (text : List Char) (idx : Nat) (c : Char) : Bool :=
  !(pyIsSpace c) ||
    (match (if idx = 0 then none else text[idx - 1]?) with
     | none => false
     | some p => !(is_cjk p) || (text[idx + 1]?).isSome)

def safe_from (text : List Char) : Nat → List Char → Bool
  | _, [] => true
  | idx, c :: rest => step_safe text idx c && safe_from text (idx + 1) rest

/-- Inputs on which `_trim_cjk_spaces` does not raise. -/
def trim_cjk_safe (s : String) : Bool := safe_from s.data 0 s.data

/-- Per-position spelling of `spec_cjk_filter`, used to run the induction. -/
def filter_from (text : List Char) : Nat → List Char → List Char
  | _, [] => []
  | idx, c :: rest =>
    if removable text idx c then filter_from text (idx + 1) rest
    else c :: filter_from text (idx + 1) rest

lemma trim_go_eq_filter_from (text : List Char) :
    ∀ rest idx, safe_from text idx rest = true →
      trim_go text idx rest = .ok (filter_from text idx rest) := by
  intro rest
  induction rest with
  | nil => intro idx _; rfl
  | cons c rest ih =>
    intro idx hsafe
    rw [safe_from, Bool.and_eq_true] at hsafe
    obtain ⟨hstep, hrest⟩ := hsafe
    rw [step_safe, Bool.or_eq_true] at hstep
    have hkeep : trim_go text (idx + 1) rest = .ok (filter_from text (idx + 1) rest) :=
      ih (idx + 1) hrest
    by_cases hsp : pyIsSpace c = true
    · have hmatch : ∃ p, (if idx = 0 then none else text[idx - 1]?) = some p := by
        rcases hstep with hstep | hstep
        · simp [hsp] at hstep
        · match hp : (if idx = 0 then none else text[idx - 1]?) with
          | none => rw [hp] at hstep; simp at hstep
          | some p => exact ⟨p, rfl⟩
      obtain ⟨p, hp⟩ := hmatch
      by_cases hcp : is_cjk p = true
      · have hnext : ∃ n, text[idx + 1]? = some n := by
          rcases hstep with hstep | hstep
          · simp [hsp] at hstep
          · rw [hp] at hstep
            simp only [hcp, Bool.not_true, Bool.false_or, Option.isSome_iff_exists] at hstep
            exact hstep
        obtain ⟨n, hn⟩ := hnext
        by_cases hcn : is_cjk n = true
        · simp [trim_go, filter_from, removable, hsp, hp, hcp, hn, hcn, hkeep]
        · simp [trim_go, filter_from, removable, hsp, hp, hcp, hn, hcn, hkeep, Except.map]
      · simp [trim_go, filter_from, removable, hsp, hp, hcp, hkeep, Except.map]
    · simp [trim_go, filter_from, removable, hsp, hkeep, Except.map]

lemma filter_from_eq_enum_filter (text : List Char) :
    ∀ rest idx,
      filter_from text idx rest =
        ((rest.enumFrom idx).filter (fun p => !(removable text p.1 p.2))).map Prod.snd := by
  intro rest
  induction rest with
  | nil => intro idx; rfl
  | cons c rest ih =>
    intro idx
    unfold filter_from
    rw [List.enumFrom]
    by_cases h : removable text idx c = true
    · rw [List.filter, ih (idx + 1)]
      simp [h]
    · rw [List.filter, ih (idx + 1)]
      simp [h]

/-! `dehyphenize`, from `text_utils.py`. -/

/-- Python `str.strip()`: remove leading and trailing whitespace. -/
def py_strip (s : String) : String :=
  String.mk (((s.data.dropWhile pyIsSpace).reverse.dropWhile pyIsSpace).reverse)

/-- Python `segment[0].islower()` on a non-empty segment (false on the
empty string, a case the source's `and segment` guard already excludes). -/
def starts_lower (s : String) : Bool :=
  match s.data with
  | [] => false
  | c :: _ => c.isLower

/-- Python `buffer.endswith("-")`: the last code point is a hyphen. -/
def ends_with_hyphen (s : String) : Bool :=
  match s.data.getLast? with
  | some c => c = '-'
  | none => false

/-- Python `buffer[:-1]`: drop the last code point. -/
def drop_last (s : String) : String := String.mk s.data.dropLast

/-- The loop of `text_utils.dehyphenize`: `buffer` is the accumulation
buffer, and each flush of the source's `result.append` becomes a list
element emitted in order. -/
def dehyph_go (buffer : String) : List String → List String
  | [] => if buffer = "" then [] else [buffer]
  | line :: rest =>
    let segment := py_strip line
    if segment = "" then
      (if buffer = "" then [] else [buffer]) ++ "" :: dehyph_go "" rest
    else if ends_with_hyphen buffer && starts_lower segment then
      dehyph_go (drop_last buffer ++ segment) rest
    else
      (if buffer = "" then [] else [buffer]) ++ dehyph_go segment rest

/-- Embedding of `text_utils.dehyphenize`. -/
def dehyphenize (lines : List String) : List String := dehyph_go "" lines

/-- `dehyph_go` instrumented with origin bookkeeping: each emitted entry
carries the input index of the first line that contributed to it and the
number of input lines collapsed into it.  `bufStart`/`bufLen` describe the
pending buffer, `idx` counts the lines consumed so far. -/
def dehyph_go_blocks (buffer : String) (bufStart bufLen idx : Nat) :
    List String → List (String × Nat × Nat)
  | [] => if buffer = "" then [] else [(buffer, bufStart, bufLen)]
  | line :: rest =>
    let segment := py_strip line
    if segment = "" then
      (if buffer = "" then [] else [(buffer, bufStart, bufLen)]) ++
        ("", idx, 1) :: dehyph_go_blocks "" (idx + 1) 0 (idx + 1) rest
    else if ends_with_hyphen buffer && starts_lower segment then
      dehyph_go_blocks (drop_last buffer ++ segment) bufStart (bufLen + 1) (idx + 1) rest
    else
      (if buffer = "" then [] else [(buffer, bufStart, bufLen)]) ++
        dehyph_go_blocks segment idx 1 (idx + 1) rest

def dehyphenize_blocks (lines : List String) : List (String × Nat × Nat) :=
  dehyph_go_blocks "" 0 0 0 lines

/-- The emitted blocks tile the input indices: starting from `start`,
each block begins where the previous one ended and is non-empty. -/
def blocks_chain : List (String × Nat × Nat) → Nat → Prop
  | [], _ => True
  | b :: rest, start => b.2.1 = start ∧ 1 ≤ b.2.2 ∧ blocks_chain rest (b.2.1 + b.2.2)

lemma string_append_ne_empty (a b : String) (hb : b ≠ "") : a ++ b ≠ "" := by
  intro h0
  apply hb
  have hd : (a ++ b).data = [] := by rw [h0]
  rw [String.data_append] at hd
  exact String.ext (List.append_eq_nil.mp hd).2

lemma dehyph_go_blocks_fst (rest : List String) :
    ∀ buffer s l i,
      (dehyph_go_blocks buffer s l i rest).map (fun b => b.1) = dehyph_go buffer rest := by
  induction rest with
  | nil =>
    intro buffer s l i
    unfold dehyph_go_blocks dehyph_go
    by_cases h : buffer = "" <;> simp [h]
  | cons line rest ih =>
    intro buffer s l i
    unfold dehyph_go_blocks dehyph_go
    dsimp only
    by_cases h1 : py_strip line = ""
    · simp only [if_pos h1]
      by_cases h : buffer = "" <;> simp [h, ih]
    · by_cases h2 : (ends_with_hyphen buffer && starts_lower (py_strip line)) = true
      · simp only [if_neg h1, if_pos h2]
        exact ih _ s (l + 1) (i + 1)
      · simp only [if_neg h1, if_neg h2]
        by_cases h : buffer = "" <;> simp [h, ih]

lemma blocks_chain_cons (t : String) (a b : Nat) (rest : List (String × Nat × Nat))
    (start : Nat) :
    blocks_chain ((t, a, b) :: rest) start ↔ a = start ∧ 1 ≤ b ∧ blocks_chain rest (a + b) :=
  Iff.rfl

lemma dehyph_go_blocks_chain (rest : List String) :
    ∀ buffer s l i, (buffer = "" ↔ l = 0) → s + l = i →
      blocks_chain (dehyph_go_blocks buffer s l i rest) s := by
  induction rest with
  | nil =>
    intro buffer s l i hiff hsum
    unfold dehyph_go_blocks
    by_cases h : buffer = ""
    · simp [h, blocks_chain]
    · have hl : 1 ≤ l := Nat.one_le_iff_ne_zero.mpr (fun h0 => h (hiff.mpr h0))
      simp [h, blocks_chain, hl]
  | cons line rest ih =>
    intro buffer s l i hiff hsum
    have hl0 : buffer = "" → l = 0 := hiff.mp
    unfold dehyph_go_blocks
    dsimp only
    by_cases h1 : py_strip line = ""
    · simp only [if_pos h1]
      by_cases h : buffer = ""
      · have hl : l = 0 := hiff.mp h
        simp only [h, eq_self_iff_true, if_true, List.nil_append, blocks_chain_cons]
        exact ⟨by omega, le_refl 1,
          ih "" (i + 1) 0 (i + 1) (by simp) (by omega)⟩
      · have hl : 1 ≤ l := Nat.one_le_iff_ne_zero.mpr (fun h0 => h (hiff.mpr h0))
        simp only [if_neg h, List.cons_append, List.nil_append, blocks_chain_cons]
        exact ⟨trivial, hl, by omega, le_refl 1,
          ih "" (i + 1) 0 (i + 1) (by simp) (by omega)⟩
    · by_cases h2 : (ends_with_hyphen buffer && starts_lower (py_strip line)) = true
      · have hmerge : drop_last buffer ++ py_strip line ≠ "" :=
          string_append_ne_empty _ _ h1
        simp only [if_neg h1, if_pos h2]
        exact ih _ s (l + 1) (i + 1) ⟨fun h0 => absurd h0 hmerge, by omega⟩ (by omega)
      · simp only [if_neg h1, if_neg h2]
        by_cases h : buffer = ""
        · have hl : l = 0 := hiff.mp h
          have hsi : s = i := by omega
          simp only [h, eq_self_iff_true, if_true, List.nil_append]
          rw [hsi]
          exact ih (py_strip line) i 1 (i + 1) ⟨fun h0 => absurd h0 h1, by omega⟩ (by omega)
        · have hl : 1 ≤ l := Nat.one_le_iff_ne_zero.mpr (fun h0 => h (hiff.mpr h0))
          simp only [if_neg h, List.singleton_append, blocks_chain_cons]
          refine ⟨trivial, hl, ?_⟩
          rw [hsum]
          exact ih (py_strip line) i 1 (i + 1) ⟨fun h0 => absurd h0 h1, by omega⟩ (by omega)

lemma dehyph_go_blocks_sizes (rest : List String) :
    ∀ buffer s l i, (buffer = "" → l = 0) →
      ((dehyph_go_blocks buffer s l i rest).map (fun b => b.2.2)).sum = l + rest.length := by
  induction rest with
  | nil =>
    intro buffer s l i himp
    unfold dehyph_go_blocks
    by_cases h : buffer = ""
    · simp [h, himp h]
    · simp [h]
  | cons line rest ih =>
    intro buffer s l i himp
    unfold dehyph_go_blocks
    dsimp only
    by_cases h1 : py_strip line = ""
    · simp only [if_pos h1]
      by_cases h : buffer = ""
      · have hl := himp h
        simp only [h, eq_self_iff_true, if_true, List.nil_append, List.map_cons, List.sum_cons]
        rw [ih "" (i + 1) 0 (i + 1) (fun _ => rfl)]
        simp only [List.length_cons]
        omega
      · simp only [if_neg h, List.cons_append, List.nil_append, List.map_cons,
          List.map_append, List.sum_cons, List.sum_append, List.map_nil, List.sum_nil]
        rw [ih "" (i + 1) 0 (i + 1) (fun _ => rfl)]
        simp only [List.length_cons]
        omega
    · by_cases h2 : (ends_with_hyphen buffer && starts_lower (py_strip line)) = true
      · have hmerge : drop_last buffer ++ py_strip line ≠ "" :=
          string_append_ne_empty _ _ h1
        simp only [if_neg h1, if_pos h2]
        rw [ih _ s (l + 1) (i + 1) (fun h0 => absurd h0 hmerge)]
        simp only [List.length_cons]
        omega
      · simp only [if_neg h1, if_neg h2]
        by_cases h : buffer = ""
        · have hl := himp h
          simp only [h, eq_self_iff_true, if_true, List.nil_append]
          rw [ih (py_strip line) i 1 (i + 1) (fun h0 => absurd h0 h1)]
          simp only [List.length_cons]
          omega
        · simp only [if_neg h, List.singleton_append, List.map_cons, List.sum_cons]
          rw [ih (py_strip line) i 1 (i + 1) (fun h0 => absurd h0 h1)]
          simp only [List.length_cons]
          omega

lemma blocks_chain_sizes_pos :
    ∀ (bs : List (String × Nat × Nat)) (start : Nat), blocks_chain bs start →
      ∀ b ∈ bs, 1 ≤ b.2.2 := by
  intro bs
  induction bs with
  | nil => intro start _ b hb; cases hb
  | cons x rest ih =>
    intro start hchain b hb
    obtain ⟨_, hx, hrest⟩ := hchain
    rcases List.mem_cons.mp hb with hb | hb
    · subst hb; exact hx
    · exact ih _ hrest b hb

lemma sum_sub_one_add_length :
    ∀ l : List Nat, (∀ x ∈ l, 1 ≤ x) → (l.map (fun x => x - 1)).sum + l.length = l.sum := by
  intro l
  induction l with
  | nil => intro _; rfl
  | cons x rest ih =>
    intro h
    have hx := h x (List.mem_cons_self x rest)
    have hrest := ih (fun y hy => h y (List.mem_cons_of_mem x hy))
    simp only [List.map_cons, List.sum_cons, List.length_cons]
    omega

lemma zip_get_q {α β : Type} :
    ∀ (l : List α) (l' : List β) (j : Nat),
      (l.zip l').get? j =
        (l.get? j).bind (fun a => (l'.get? j).map (fun b => (a, b))) := by
  intro l
  induction l with
  | nil => intro l' j; simp
  | cons a l ih =>
    intro l' j
    cases l' with
    | nil => simp
    | cons b l' =>
      cases j with
      | zero => simp
      | succ j => simpa using ih l' j

/-- Python `str.split()` with no separator: split on runs of whitespace,
discarding empty fields (`acc` is the current word, reversed). -/
def split_ws_aux : List Char → List Char → List (List Char)
  | [], acc => if acc.isEmpty then [] else [acc.reverse]
  | c :: rest, acc =>
    if pyIsSpace c then
      if acc.isEmpty then split_ws_aux rest [] else acc.reverse :: split_ws_aux rest []
    else split_ws_aux rest (c :: acc)

/-- Python `" ".join(s.split())`: collapse whitespace runs to single
spaces and trim the ends. -/
def collapse_ws (s : String) : String :=
  String.intercalate " " ((split_ws_aux s.data []).map String.mk)

/-- The zero-width cleanup of `normalize_token`: U+200B becomes a space,
U+200C/U+200D/U+FEFF are removed.  The source performs four sequential
`replace` calls; they act on disjoint characters (and the inserted space
is not among the removed characters), so one per-character pass is
equivalent. -/
def zero_width_clean (s : String) : String :=
  String.mk (s.data.filterMap (fun c =>
    if c = '​' then some ' '
    else if c = '‌' ∨ c = '‍' ∨ c = '﻿' then none
    else some c))

/-- Embedding of `text_utils.normalize_token`.  The first step of the
source is `unicodedata.normalize("NFKC", text or "")`, a transformation
of the external `unicodedata` library, so it is taken as the explicit
parameter `nfkc`; the theorems below instantiate it with `id` on inputs
made of NFKC-fixed characters (ASCII, Hangul syllables and CJK unified
ideographs are all unchanged by NFKC). -/
def normalize_token (nfkc : String → String) (text : String)
    (keep_spaces : Bool) (cjk_join : Bool) : Except Unit String :=
  let normalized := zero_width_clean (nfkc text)
  let normalized := if keep_spaces then normalized else collapse_ws normalized
  if cjk_join then trim_cjk_spaces normalized else .ok normalized

/-- C9 (counterexample): the claim's first example fails on the code.
The character 가 is U+AC00, a Hangul syllable, which lies in none of the
`is_cjk` ranges (Unified Ideographs, Extension A, Extension B-D,
Compatibility Ideographs), so `normalize_token("가 나", cjk_join=True)`
keeps the space instead of producing "가나". -/
theorem normalize_token_hangul_not_joined :
    normalize_token id "가 나" false true = .ok "가 나" ∧
    ("가 나" : String) ≠ "가나" := by
  exact ⟨rfl, by decide⟩

/-- C9 (amended): with `cjk_join` true the code removes exactly those
whitespace characters whose immediate predecessor and successor in the
string are both CJK ideographs of the `is_cjk` ranges — on every input
on which the scan does not crash (a leading whitespace character, or a
trailing whitespace character right after a CJK character, makes the
source call `ord("")`, which raises `TypeError`).  The claim's examples
are corrected: 가 is a Hangul syllable outside those ranges, so
`normalize_token("가 나", cjk_join=True)` keeps the space, as does
`normalize_token("가 a", cjk_join=True)`; between genuine ideographs, as
in "中 文", the space is removed. -/
theorem trim_cjk_spaces_exact :
    (∀ s : String, trim_cjk_safe s = true →
      trim_cjk_spaces s = .ok (spec_cjk_filter s)) ∧
    normalize_token id "가 a" false true = .ok "가 a" ∧
    normalize_token id "中 文" false true = .ok "中文" ∧
    is_cjk '가' = false ∧ is_cjk '中' = true := by
  refine ⟨?_, rfl, rfl, rfl, rfl⟩
  intro s hsafe
  unfold trim_cjk_safe at hsafe
  unfold trim_cjk_spaces
  by_cases h : s = ""
  · subst h
    rfl
  · rw [if_neg h, trim_go_eq_filter_from s.data s.data 0 hsafe]
    unfold spec_cjk_filter
    rw [filter_from_eq_enum_filter s.data s.data 0]
    rfl

/-- C9 witness: the exactness theorem applied to a concrete string with
an inner CJK-flanked space and an inner non-CJK-flanked space. -/
theorem trim_cjk_spaces_exact_witness :
    trim_cjk_safe "a 中 文 b" = true ∧
    trim_cjk_spaces "a 中 文 b" = .ok (spec_cjk_filter "a 中 文 b") :=
  ⟨rfl, trim_cjk_spaces_exact.1 "a 中 文 b" rfl⟩

/-- C5 (counterexample): the Overlay Engine's positional re-zip
(`zip(dehyphenize(texts), bboxes)`, overlay.py lines 226-230) does not
pair a non-merged line with its own bbox once a merge happened earlier:
for the lines `["foo-", "bar", "baz"]` with bboxes `10, 20, 30`, "baz"
(the non-merged line at input index 2, own bbox 30) is paired with bbox
20, and its own bbox never appears in the zipped result. -/
theorem dehyphenize_rezip_counterexample :
    (dehyphenize ["foo-", "bar", "baz"]).zip [(10 : Nat), 20, 30] =
      [("foobar", 10), ("baz", 20)] ∧
    ("baz", (30 : Nat)) ∉ (dehyphenize ["foo-", "bar", "baz"]).zip [(10 : Nat), 20, 30] := by
  constructor
  · rfl
  · intro hmem
    have : (("baz", (30 : Nat)) ∈ [(("foobar" : String), (10 : Nat)), ("baz", 20)]) := by
      rw [show (dehyphenize ["foo-", "bar", "baz"]).zip [(10 : Nat), 20, 30] =
        [(("foobar" : String), (10 : Nat)), ("baz", 20)] from rfl] at hmem
      exact hmem
    simp at this

/-- C5 (amended): `dehyphenize` emits, in order, blocks of consecutive
input lines (`dehyphenize_blocks` carries each output's first input index
and block size): the blocks tile the input indices starting at 0, each
merge collapses one more line into the current block so the total entry
count drops by exactly one per merge, and the Overlay Engine's positional
re-zip pairs the output at position `j` with the `j`-th original bbox —
which is the first merged line's bbox only until the first merge; after a
merge, outputs are paired with bboxes that many positions before their
origin. -/
theorem dehyphenize_block_structure (lines : List String) :
    (dehyphenize_blocks lines).map (fun b => b.1) = dehyphenize lines ∧
    blocks_chain (dehyphenize_blocks lines) 0 ∧
    ((dehyphenize_blocks lines).map (fun b => b.2.2)).sum = lines.length ∧
    (dehyphenize lines).length +
      ((dehyphenize_blocks lines).map (fun b => b.2.2 - 1)).sum = lines.length ∧
    ∀ (bboxes : List (Rat × Rat × Rat × Rat)) (j : Nat),
      ((dehyphenize lines).zip bboxes).get? j =
        ((dehyphenize lines).get? j).bind
          (fun t => (bboxes.get? j).map (fun b => (t, b))) := by
  unfold dehyphenize dehyphenize_blocks
  have hfst := dehyph_go_blocks_fst lines "" 0 0 0
  have hchain := dehyph_go_blocks_chain lines "" 0 0 0 (by simp) rfl
  have hsizes := dehyph_go_blocks_sizes lines "" 0 0 0 (fun _ => rfl)
  refine ⟨hfst, hchain, by simpa using hsizes, ?_, fun bboxes j => zip_get_q _ _ _⟩
  have hpos := blocks_chain_sizes_pos _ _ hchain
  have hsub := sum_sub_one_add_length
    ((dehyph_go_blocks "" 0 0 0 lines).map (fun b => b.2.2))
    (by intro x hx
        obtain ⟨b, hb, rfl⟩ := List.mem_map.mp hx
        exact hpos b hb)
  rw [List.map_map, List.length_map] at hsub
  have hlen : (dehyph_go "" lines).length = (dehyph_go_blocks "" 0 0 0 lines).length := by
    rw [← hfst, List.length_map]
  have hgoal :
      ((dehyph_go_blocks "" 0 0 0 lines).map ((fun x => x - 1) ∘ fun b => b.2.2)).sum =
        ((dehyph_go_blocks "" 0 0 0 lines).map (fun b => b.2.2 - 1)).sum := rfl
  rw [hgoal] at hsub
  omega

/-- C7: the dehyphenation rules at work: a trailing hyphen followed by a
lowercase-starting line merges with the hyphen dropped and no join
character, an uppercase continuation does not merge, and a blank line
flushes the pending buffer and emits a blank placeholder entry. -/
theorem dehyphenize_rules_and_examples :
    dehyphenize ["foo-", "bar", "baz"] = ["foobar", "baz"] ∧
    dehyphenize ["foo-", "Bar"] = ["foo-", "Bar"] ∧
    (∀ rest : List String, dehyphenize ("" :: rest) = "" :: dehyphenize rest) ∧
    (∀ (rest : List String) (buffer : String), buffer ≠ "" →
      dehyph_go buffer ("" :: rest) = buffer :: "" :: dehyph_go "" rest) := by
  refine ⟨rfl, rfl, fun rest => rfl, ?_⟩
  intro rest buffer h
  rw [dehyph_go]
  rw [if_pos (show py_strip "" = "" from rfl), if_neg h]
  rfl

/-- C7 witness: the blank-line flush rule applied at a concrete non-empty
buffer. -/
theorem dehyphenize_rules_witness :
    ("x" : String) ≠ "" ∧
    dehyph_go "x" ("" :: ["y"]) = "x" :: "" :: dehyph_go "" ["y"] :=
  ⟨by decide, dehyphenize_rules_and_examples.2.2.2 ["y"] "x" (by decide)⟩

/-! OCR data structures and JSON round-trip, from `ocr_io.py`.  The JSON
text layer is not modelled: `json.dumps`/`json.loads` round-trip Python
floats, ints, strings, lists and dicts exactly, so `save_ocr_json` is
embedded as producing the structured entries it writes (`SavedPage`,
whose fields are exactly the keys the source emits) and `load_ocr_json`
as consuming them.  Since an entry written by `save_ocr_json` has no
`"width"` key, `float(entry.get("width_px") or entry.get("width"))`
raises `TypeError` (`float(None)`) exactly when the saved `width_px` is
falsy, i.e. zero — that is the error path modelled in `load_page`. -/

/-- Embedding of `ocr_io.OCRWord` (`bbox` is the `(x, y, w, h)` tuple). -/
structure OCRWord where
  text : String
  bbox : Rat × Rat × Rat × Rat
deriving DecidableEq, Repr

/-- Embedding of `ocr_io.OCRLine`. -/
structure OCRLine where
  text : String
  bbox : Rat × Rat × Rat × Rat
  words : List OCRWord
deriving DecidableEq, Repr

/-- Embedding of `ocr_io.OCRPage`. -/
structure OCRPage where
  index : Int
  width_px : Rat
  height_px : Rat
  rotation : Option Int
  words : List OCRWord
  lines : List OCRLine
deriving DecidableEq, Repr

/-- The sort key comparison of `_lines_from_words`: Python sorts by the
tuple `(bbox[1], bbox[0])`, i.e. lexicographically by top-y then x. -/
def word_key_lt (a b : OCRWord) : Prop :=
  a.bbox.2.1 < b.bbox.2.1 ∨ (a.bbox.2.1 = b.bbox.2.1 ∧ a.bbox.1 < b.bbox.1)

instance (a b : OCRWord) : Decidable (word_key_lt a b) := by
  unfold word_key_lt; infer_instance

/-- Non-strict version of the key order, for stating sortedness. -/
def word_key_le (a b : OCRWord) : Prop :=
  a.bbox.2.1 < b.bbox.2.1 ∨ (a.bbox.2.1 = b.bbox.2.1 ∧ a.bbox.1 ≤ b.bbox.1)

/-- Stable insertion: a word goes after every element whose key is
strictly smaller, and before the first one whose key is not — so words
with equal keys keep their input order, as Python's stable `sorted`
does. -/
def sinsert (w : OCRWord) : List OCRWord → List OCRWord
  | [] => [w]
  | v :: rest => if word_key_lt v w then v :: sinsert w rest else w :: v :: rest

/-- Stable sort by `(bbox[1], bbox[0])`, modelling
`sorted(words, key=lambda w: (w.bbox[1], w.bbox[0]))`. -/
def ssort : List OCRWord → List OCRWord
  | [] => []
  | w :: rest => sinsert w (ssort rest)

/-- The fresh accumulator line `OCRLine(text=word.text, bbox=word.bbox,
words=[word])` of `_lines_from_words`. -/
def line_of_word (w : OCRWord) : OCRLine := ⟨w.text, w.bbox, [w]⟩

/-- The merge step of `_lines_from_words` (lines 179-185): append the
word's text with a space, extend the word list, and union the `(x, y, w,
h)` boxes. -/
def merge_word (cur : OCRLine) (w : OCRWord) : OCRLine :=
  let x0 := min cur.bbox.1 w.bbox.1
  let y0 := min cur.bbox.2.1 w.bbox.2.1
  let x1 := max (cur.bbox.1 + cur.bbox.2.2.1) (w.bbox.1 + w.bbox.2.2.1)
  let y1 := max (cur.bbox.2.1 + cur.bbox.2.2.2) (w.bbox.2.1 + w.bbox.2.2.2)
  ⟨cur.text ++ " " ++ w.text, (x0, y0, x1 - x0, y1 - y0), cur.words ++ [w]⟩

/-- The accumulation loop of `_lines_from_words`: a word within
`tolerance` of the current line's bbox top-y is merged, otherwise the
current line is emitted and the word starts a new one. -/
def lfw_go (tol : Rat) (cur : OCRLine) : List OCRWord → List OCRLine
  | [] => [cur]
  | w :: rest =>
    if |w.bbox.2.1 - cur.bbox.2.1| ≤ tol then lfw_go tol (merge_word cur w) rest
    else cur :: lfw_go tol (line_of_word w) rest

/-- Embedding of `ocr_io._lines_from_words` (the source's default
`tolerance` is 4.0; callers pass none, so the claims use `4`). -/
def lines_from_words (words : List OCRWord) (tol : Rat) : List OCRLine :=
  match ssort words with
  | [] => []
  | w :: rest => lfw_go tol (line_of_word w) rest

/-- Spec side: the space-join of a group's word texts. -/
def texts_joined : List OCRWord → String
  | [] => ""
  | [w] => w.text
  | w :: rest => w.text ++ " " ++ texts_joined rest

/-- Spec side: the smallest top-y coordinate of a group. -/
def group_min_y : List OCRWord → Rat
  | [] => 0
  | w :: rest => rest.foldl (fun m v => min m v.bbox.2.1) w.bbox.2.1

/-- Spec side: the union bounding box of a group, in `(x, y, w, h)`
form. -/
def union_bbox : List OCRWord → Rat × Rat × Rat × Rat
  | [] => (0, 0, 0, 0)
  | w :: rest =>
    let x0 := rest.foldl (fun m v => min m v.bbox.1) w.bbox.1
    let y0 := rest.foldl (fun m v => min m v.bbox.2.1) w.bbox.2.1
    let x1 := rest.foldl (fun m v => max m (v.bbox.1 + v.bbox.2.2.1)) (w.bbox.1 + w.bbox.2.2.1)
    let y1 := rest.foldl (fun m v => max m (v.bbox.2.1 + v.bbox.2.2.2)) (w.bbox.2.1 + w.bbox.2.2.2)
    (x0, y0, x1 - x0, y1 - y0)

/-- Spec side: each group becomes one line with the space-joined text and
the union bounding box. -/
def line_of_group (g : List OCRWord) : OCRLine := ⟨texts_joined g, union_bbox g, g⟩

/-- Spec side: greedy grouping of the (sorted) word list — a word joins
the current group when its top-y lies within the tolerance of the group's
smallest top-y (for a y-sorted list, the group's first word's y), else it
starts a new group. -/
def group_go (tol : Rat) (cur : List OCRWord) : List OCRWord → List (List OCRWord)
  | [] => [cur]
  | w :: rest =>
    if |w.bbox.2.1 - group_min_y cur| ≤ tol then group_go tol (cur ++ [w]) rest
    else cur :: group_go tol [w] rest

def group_words (tol : Rat) (ws : List OCRWord) : List (List OCRWord) :=
  match ws with
  | [] => []
  | w :: rest => group_go tol [w] rest

/-! The JSON entry shapes written by `save_ocr_json`. -/

/-- One element of a saved `"words"` array: keys `"text"` and `"bbox"`
(a four-element list). -/
structure SavedWord where
  text : String
  bbox : List Rat
deriving DecidableEq, Repr

/-- One element of a saved `"lines"` array: keys `"text"`, `"bbox"`,
`"words"`. -/
structure SavedLine where
  text : String
  bbox : List Rat
  words : List SavedWord
deriving DecidableEq, Repr

/-- One saved page object: keys `"page"`, `"width_px"`, `"height_px"`,
`"rotation"`, `"words"`, `"lines"`. -/
structure SavedPage where
  page : Int
  width_px : Rat
  height_px : Rat
  rotation : Option Int
  words : List SavedWord
  lines : List SavedLine
deriving DecidableEq, Repr

def save_word (w : OCRWord) : SavedWord :=
  ⟨w.text, [w.bbox.1, w.bbox.2.1, w.bbox.2.2.1, w.bbox.2.2.2]⟩

def save_line (l : OCRLine) : SavedLine :=
  ⟨l.text, [l.bbox.1, l.bbox.2.1, l.bbox.2.2.1, l.bbox.2.2.2], l.words.map save_word⟩

def save_page (p : OCRPage) : SavedPage :=
  ⟨p.index, p.width_px, p.height_px, p.rotation, p.words.map save_word,
   p.lines.map save_line⟩

/-- Embedding of `ocr_io.save_ocr_json` (file writing abstracted away;
the JSON text preserves these values exactly). -/
def save_ocr_json (pages : List OCRPage) : List SavedPage := pages.map save_page

/-- Sequential fallible mapping, as a Python list comprehension whose
body may raise: the first failure aborts the whole call. -/
def except_map_list {ε α β : Type} (f : α → Except ε β) : List α → Except ε (List β)
  | [] => .ok []
  | a :: rest =>
    match f a with
    | .error e => .error e
    | .ok b =>
      match except_map_list f rest with
      | .error e => .error e
      | .ok bs => .ok (b :: bs)

/-- Embedding of `ocr_io._decode_bbox`. -/
def decode_bbox (value : List Rat) : Except String (Rat × Rat × Rat × Rat) :=
  match value with
  | [x, y, w, h] => .ok (x, y, w, h)
  | _ => .error "Bounding box must contain 4 numeric entries."

/-- Decoding of one word entry (entries produced by `save_ocr_json`
always carry both keys, so the source's `"text" in word and "bbox" in
word` filter keeps every element). -/
def load_word (w : SavedWord) : Except String OCRWord :=
  match decode_bbox w.bbox with
  | .error e => .error e
  | .ok bbox => .ok ⟨w.text, bbox⟩

/-- Decoding of one line entry. -/
def load_line (l : SavedLine) : Except String OCRLine :=
  match decode_bbox l.bbox with
  | .error e => .error e
  | .ok bbox =>
    match except_map_list load_word l.words with
    | .error e => .error e
    | .ok words => .ok ⟨l.text, bbox, words⟩

/-- Decoding of one page entry of `load_ocr_json` (lines 91-131): a falsy
(zero) `width_px`/`height_px` falls through to the absent `"width"`
/`"height"` key and `float(None)` raises; when the decoded lines are
empty and words are present, lines are synthesized with
`_lines_from_words`. -/
def load_page (e : SavedPage) : Except String OCRPage :=
  if e.width_px = 0 then
    .error "TypeError: float() argument is None (missing width)"
  else if e.height_px = 0 then
    .error "TypeError: float() argument is None (missing height)"
  else
    match except_map_list load_word e.words with
    | .error err => .error err
    | .ok words =>
      match except_map_list load_line e.lines with
      | .error err => .error err
      | .ok lines =>
        .ok ⟨e.page, e.width_px, e.height_px, e.rotation, words,
             if lines = [] ∧ words ≠ [] then lines_from_words words 4 else lines⟩

/-- Embedding of `ocr_io.load_ocr_json` on payloads of the saved shape. -/
def load_ocr_json (payload : List SavedPage) : Except String (List OCRPage) :=
  except_map_list load_page payload

lemma str_append_assoc (a b c : String) : a ++ b ++ c = a ++ (b ++ c) := by
  apply String.ext
  simp [String.data_append, List.append_assoc]

lemma word_key_le_of_lt (a b : OCRWord) : word_key_lt a b → word_key_le a b := by
  rintro (h | ⟨h1, h2⟩)
  · exact Or.inl h
  · exact Or.inr ⟨h1, le_of_lt h2⟩

lemma word_key_le_of_not_lt (a b : OCRWord) : ¬ word_key_lt b a → word_key_le a b := by
  intro h
  unfold word_key_lt at h
  push_neg at h
  obtain ⟨h1, h2⟩ := h
  rcases lt_trichotomy a.bbox.2.1 b.bbox.2.1 with hy | hy | hy
  · exact Or.inl hy
  · exact Or.inr ⟨hy, h2 hy.symm⟩
  · exact absurd hy (not_lt.mpr h1)

lemma word_key_le_trans (a b c : OCRWord) :
    word_key_le a b → word_key_le b c → word_key_le a c := by
  rintro (h | ⟨h1, h2⟩) (g | ⟨g1, g2⟩)
  · exact Or.inl (lt_trans h g)
  · exact Or.inl (by rw [← g1]; exact h)
  · exact Or.inl (by rw [h1]; exact g)
  · exact Or.inr ⟨h1.trans g1, le_trans h2 g2⟩

lemma mem_sinsert (w : OCRWord) :
    ∀ (l : List OCRWord) (x : OCRWord), x ∈ sinsert w l → x = w ∨ x ∈ l := by
  intro l
  induction l with
  | nil =>
    intro x hx
    simp [sinsert] at hx
    exact Or.inl hx
  | cons v rest ih =>
    intro x hx
    unfold sinsert at hx
    by_cases h : word_key_lt v w
    · rw [if_pos h] at hx
      rcases List.mem_cons.mp hx with hx | hx
      · exact Or.inr (hx ▸ List.mem_cons_self v rest)
      · rcases ih x hx with hx | hx
        · exact Or.inl hx
        · exact Or.inr (List.mem_cons_of_mem v hx)
    · rw [if_neg h] at hx
      rcases List.mem_cons.mp hx with hx | hx
      · exact Or.inl hx
      · exact Or.inr hx

lemma sinsert_pairwise (w : OCRWord) :
    ∀ l : List OCRWord, l.Pairwise word_key_le → (sinsert w l).Pairwise word_key_le := by
  intro l
  induction l with
  | nil => intro _; exact List.pairwise_singleton _ _
  | cons v rest ih =>
    intro hp
    rw [List.pairwise_cons] at hp
    obtain ⟨hv, hrest⟩ := hp
    unfold sinsert
    by_cases h : word_key_lt v w
    · rw [if_pos h, List.pairwise_cons]
      refine ⟨?_, ih hrest⟩
      intro x hx
      rcases mem_sinsert w rest x hx with hx | hx
      · subst hx
        exact word_key_le_of_lt v x h
      · exact hv x hx
    · rw [if_neg h, List.pairwise_cons]
      refine ⟨?_, List.pairwise_cons.mpr ⟨hv, hrest⟩⟩
      intro x hx
      rcases List.mem_cons.mp hx with hx | hx
      · subst hx
        exact word_key_le_of_not_lt w x h
      · exact word_key_le_trans w v x (word_key_le_of_not_lt w v h) (hv x hx)

lemma ssort_pairwise : ∀ l : List OCRWord, (ssort l).Pairwise word_key_le := by
  intro l
  induction l with
  | nil => exact List.Pairwise.nil
  | cons w rest ih => exact sinsert_pairwise w (ssort rest) ih

lemma sinsert_perm (w : OCRWord) : ∀ l : List OCRWord, (sinsert w l).Perm (w :: l) := by
  intro l
  induction l with
  | nil => exact List.Perm.refl _
  | cons v rest ih =>
    unfold sinsert
    by_cases h : word_key_lt v w
    · rw [if_pos h]
      exact (ih.cons v).trans (List.Perm.swap w v rest)
    · rw [if_neg h]

lemma ssort_perm : ∀ l : List OCRWord, (ssort l).Perm l := by
  intro l
  induction l with
  | nil => exact List.Perm.refl _
  | cons w rest ih => exact (sinsert_perm w (ssort rest)).trans (ih.cons w)

lemma texts_joined_append :
    ∀ g : List OCRWord, g ≠ [] → ∀ w,
      texts_joined (g ++ [w]) = texts_joined g ++ " " ++ w.text := by
  intro g
  induction g with
  | nil => intro h; exact absurd rfl h
  | cons v rest ih =>
    intro _ w
    cases rest with
    | nil => simp [texts_joined, str_append_assoc]
    | cons u rest2 =>
      show v.text ++ " " ++ texts_joined ((u :: rest2) ++ [w]) =
        v.text ++ " " ++ texts_joined (u :: rest2) ++ " " ++ w.text
      rw [ih (List.cons_ne_nil _ _) w]
      simp [str_append_assoc]

lemma add_sub_self_left (a b : Rat) : a + (b - a) = b := by ring

lemma line_of_word_eq_group (w : OCRWord) : line_of_word w = line_of_group [w] := by
  obtain ⟨t, x, y, ww, hh⟩ := w
  simp only [line_of_word, line_of_group, texts_joined, union_bbox, List.foldl_nil,
    OCRLine.mk.injEq, Prod.mk.injEq]
  refine ⟨trivial, ⟨trivial, trivial, by ring, by ring⟩, trivial⟩

lemma merge_word_line_of_group (g : List OCRWord) (hg : g ≠ []) (w : OCRWord) :
    merge_word (line_of_group g) w = line_of_group (g ++ [w]) := by
  cases g with
  | nil => exact absurd rfl hg
  | cons v rest =>
    simp only [line_of_group, merge_word]
    rw [texts_joined_append _ (List.cons_ne_nil _ _) w]
    simp only [List.cons_append, union_bbox, List.foldl_append, List.foldl_cons,
      List.foldl_nil, OCRLine.mk.injEq, Prod.mk.injEq]
    refine ⟨trivial, ⟨trivial, trivial, by rw [add_sub_self_left], by rw [add_sub_self_left]⟩,
      trivial⟩

lemma lfw_go_eq_group_go (tol : Rat) :
    ∀ (rest g : List OCRWord), g ≠ [] →
      lfw_go tol (line_of_group g) rest = (group_go tol g rest).map line_of_group := by
  intro rest
  induction rest with
  | nil => intro g _; rfl
  | cons w rest ih =>
    intro g hg
    have hy : (line_of_group g).bbox.2.1 = group_min_y g := by
      cases g with
      | nil => exact absurd rfl hg
      | cons v gs => rfl
    rw [lfw_go, group_go, hy]
    by_cases h : |w.bbox.2.1 - group_min_y g| ≤ tol
    · rw [if_pos h, if_pos h, merge_word_line_of_group g hg w]
      exact ih (g ++ [w]) (by simp)
    · rw [if_neg h, if_neg h, List.map_cons, line_of_word_eq_group, ih [w] (by simp)]

/-- C8: `_lines_from_words` synthesizes lines exactly as the spec says:
after the stable sort by `(top-y, x)` (top-to-bottom then left-to-right;
a permutation of the words, sorted in the non-strict key order), the
sorted words are grouped greedily, a word joining the current group
exactly when its top-y is within tolerance 4 of the group's smallest
(first) top-y, and each group becomes one line carrying the space-join of
its words' texts and the union bounding box of their bboxes; and this is
exactly what `load_ocr_json` uses for a loaded entry whose `lines` array
is empty but whose decoded `words` are not. -/
theorem lines_from_words_grouping :
    (∀ words : List OCRWord,
      lines_from_words words 4 = (group_words 4 (ssort words)).map line_of_group) ∧
    (∀ words : List OCRWord, (ssort words).Pairwise word_key_le) ∧
    (∀ words : List OCRWord, (ssort words).Perm words) ∧
    (∀ e : SavedPage, e.width_px ≠ 0 → e.height_px ≠ 0 → e.lines = [] →
      ∀ ws : List OCRWord, except_map_list load_word e.words = .ok ws → ws ≠ [] →
        load_page e = .ok ⟨e.page, e.width_px, e.height_px, e.rotation, ws,
          lines_from_words ws 4⟩) := by
  refine ⟨?_, ssort_pairwise, ssort_perm, ?_⟩
  · intro words
    unfold lines_from_words group_words
    cases hs : ssort words with
    | nil => rfl
    | cons w rest =>
      show lfw_go 4 (line_of_word w) rest = (group_go 4 [w] rest).map line_of_group
      rw [line_of_word_eq_group]
      exact lfw_go_eq_group_go 4 rest [w] (by simp)
  · intro e hw hh hl ws hws hne
    unfold load_page
    rw [if_neg hw, if_neg hh, hws, hl]
    simp [except_map_list, hne]

/-- C8 witness: the loading conjunct applied to a concrete entry with an
empty `lines` array and one word. -/
theorem lines_from_words_grouping_witness :
    load_page ⟨0, 100, 200, none, [⟨"hi", [0, 0, 10, 10]⟩], []⟩ =
      .ok ⟨0, 100, 200, none, [⟨"hi", (0, 0, 10, 10)⟩],
        lines_from_words [⟨"hi", (0, 0, 10, 10)⟩] 4⟩ :=
  lines_from_words_grouping.2.2.2 ⟨0, 100, 200, none, [⟨"hi", [0, 0, 10, 10]⟩], []⟩
    (by decide) (by decide) rfl [⟨"hi", (0, 0, 10, 10)⟩] rfl (by decide)

lemma load_word_save (w : OCRWord) : load_word (save_word w) = .ok w := by
  obtain ⟨t, x, y, ww, hh⟩ := w
  rfl

lemma words_roundtrip :
    ∀ ws : List OCRWord, except_map_list load_word (ws.map save_word) = .ok ws := by
  intro ws
  induction ws with
  | nil => rfl
  | cons w rest ih => simp [except_map_list, load_word_save, ih]

lemma load_line_save (l : OCRLine) : load_line (save_line l) = .ok l := by
  obtain ⟨t, b, ws⟩ := l
  obtain ⟨x, y, ww, hh⟩ := b
  simp [load_line, save_line, decode_bbox, words_roundtrip]

lemma lines_roundtrip :
    ∀ ls : List OCRLine, except_map_list load_line (ls.map save_line) = .ok ls := by
  intro ls
  induction ls with
  | nil => rfl
  | cons l rest ih => simp [except_map_list, load_line_save, ih]

lemma load_page_save (p : OCRPage) (hw : p.width_px ≠ 0) (hh : p.height_px ≠ 0)
    (hlw : p.lines = [] → p.words = []) : load_page (save_page p) = .ok p := by
  have hcond : ¬ (p.lines = [] ∧ p.words ≠ []) := fun hc => hc.2 (hlw hc.1)
  unfold load_page save_page
  simp only [if_neg hw, if_neg hh, words_roundtrip, lines_roundtrip, if_neg hcond]

/-- C4 (counterexample): the JSON round-trip is not the identity on
every page list.  A page with a non-empty `words` array and an empty
`lines` array is loaded back with synthesized lines, so the reloaded
page differs from the saved one. -/
theorem save_load_synthesizes_lines_counterexample :
    load_ocr_json (save_ocr_json
        [⟨0, 100, 200, none, [⟨"hi", (0, 0, 10, 10)⟩], []⟩]) =
      .ok [⟨0, 100, 200, none, [⟨"hi", (0, 0, 10, 10)⟩],
        [⟨"hi", (0, 0, 10, 10), [⟨"hi", (0, 0, 10, 10)⟩]⟩]⟩] ∧
    ([⟨"hi", (0, 0, 10, 10), [⟨"hi", (0, 0, 10, 10)⟩]⟩] : List OCRLine) ≠ [] :=
  ⟨rfl, by decide⟩

/-- C4 (amended): saving then reloading reproduces the identical page
content (index, pixel dimensions, rotation, words and lines, by value)
for every list of pages whose entries have non-zero pixel dimensions
(a zero `width_px`/`height_px` is falsy, so reloading falls through to
the absent `"width"`/`"height"` key and raises `TypeError`) and do not
pair an empty `lines` list with non-empty `words` (for those,
`load_ocr_json` synthesizes lines, so the reload is not the identity). -/
theorem save_load_roundtrip (pages : List OCRPage)
    (h : ∀ p ∈ pages,
      p.width_px ≠ 0 ∧ p.height_px ≠ 0 ∧ (p.lines = [] → p.words = [])) :
    load_ocr_json (save_ocr_json pages) = .ok pages := by
  induction pages with
  | nil => rfl
  | cons p rest ih =>
    obtain ⟨hw, hh, hlw⟩ := h p (List.mem_cons_self p rest)
    have hrest : except_map_list load_page (rest.map save_page) = .ok rest :=
      ih (fun q hq => h q (List.mem_cons_of_mem p hq))
    have hp : load_page (save_page p) = .ok p := load_page_save p hw hh hlw
    show except_map_list load_page (save_page p :: rest.map save_page) = .ok (p :: rest)
    simp [except_map_list, hp, hrest]

/-! Alignment resolution, from `overlay.py`.  The PyMuPDF page/document
are modelled by `PageModel`: the page's bound rectangle and rotation, and
per embedded image its xref, its placement rectangles
(`page.get_image_rects(xref)`) and the intrinsic pixel dimensions
`doc.extract_image(xref)` reports (absent keys modelled as `none`).  The
`settings.align` string arrives already parsed as `AlignMode` (the claims
do not concern the string parsing; `image-rect:...`/`image:...` parse
errors are upstream of the behavior verified here, and the falsy empty
string maps to `auto` as in the source). -/

/-- The parsed alignment mode string of `OverlaySettings.align`. -/
inductive AlignMode where
  | auto : AlignMode
  | page : AlignMode
  | imageRect : Rect → AlignMode
  | image : Int → AlignMode
deriving DecidableEq, Repr

/-- The fields of `overlay.OverlaySettings` that `_determine_alignment`
and `_page_dimensions_px` read (the rest of the settings do not affect
alignment resolution). -/
structure OverlaySettings where
  align : AlignMode
  rotate_override : Option Int
  dpi : Option Int
deriving DecidableEq, Repr

/-- One embedded image of a page as the external PDF library reports it:
`xref`, the rectangles `get_image_rects` returns, and the `"width"` and
`"height"` entries of `doc.extract_image(xref)` (absent keys are
`none`). -/
structure ImageEntry where
  xref : Int
  rects : List Rect
  info_width : Option Rat
  info_height : Option Rat
deriving DecidableEq, Repr

/-- A PyMuPDF page (and the document data `_determine_alignment` reads
through it): its bound rectangle, its rotation, and its images. -/
structure PageModel where
  page_rect : Rect
  rotation : Int
  images : List ImageEntry
deriving DecidableEq, Repr

/-- Embedding of `overlay.AlignmentInfo`. -/
structure AlignmentInfo where
  rect : Rect
  width_px : Rat
  height_px : Rat
  rotation : Int
  xref : Option Int
  source : String
deriving DecidableEq, Repr

/-- Embedding of `overlay._page_dimensions_px`: Python truthiness of the
float dimensions is non-zero; with falsy dimensions the function always
raises — the message depends on whether `settings.dpi` is falsy (the
DPI-based fallback is a commented-out formula, dead code). -/
def page_dimensions_px (ocr : OCRPage) (settings : OverlaySettings) :
    Except String (Rat × Rat) :=
  if ocr.width_px ≠ 0 ∧ ocr.height_px ≠ 0 then
    .ok (ocr.width_px, ocr.height_px)
  else if settings.dpi = none ∨ settings.dpi = some 0 then
    .error "OCR JSON missing width/height and --dpi not provided."
  else
    .error "OCR JSON must include width_px/height_px when align=page."

def rect_area (r : Rect) : Rat := r.width * r.height

/-- Python `max(rects, key=lambda r: r.width * r.height)`: the first
rectangle of maximal area (later entries replace the current one only
when strictly larger). -/
def largest_rect (r : Rect) : List Rect → Rect
  | [] => r
  | s :: rest => if rect_area r < rect_area s then largest_rect s rest else largest_rect r rest

/-- A candidate from one image entry: skipped when `get_image_rects` is
empty, else the largest placement rectangle. -/
def entry_candidate (e : ImageEntry) : Option (ImageEntry × Rect) :=
  match e.rects with
  | [] => none
  | r :: rest => some (e, largest_rect r rest)

/-- The candidate loop of `_determine_alignment` (lines 144-154): entries
whose xref differs from a requested target are skipped. -/
def image_candidates (xref_target : Option Int) (entries : List ImageEntry) :
    List (ImageEntry × Rect) :=
  entries.filterMap fun e =>
    match xref_target with
    | some t => if t = e.xref then entry_candidate e else none
    | none => entry_candidate e

/-- Python `max(candidates, key=...)` over candidate rect areas (first
maximum). -/
def choose_largest (c : ImageEntry × Rect) : List (ImageEntry × Rect) →
    ImageEntry × Rect
  | [] => c
  | d :: rest =>
    if rect_area c.2 < rect_area d.2 then choose_largest d rest else choose_largest c rest

/-- The shared image-based tail of `_determine_alignment` (lines
137-184), for the `auto` and `image:<xref>` modes. -/
def determine_from_images (page : PageModel) (ocr : OCRPage)
    (settings : OverlaySettings) (xref_target : Option Int) (rotation : Int) :
    Except String AlignmentInfo :=
  match image_candidates xref_target page.images with
  | [] =>
    match page_dimensions_px ocr settings with
    | .error e => .error e
    | .ok (w, h) =>
      .ok ⟨page.page_rect, w, h, rotation, none, "page-fallback"⟩
  | c :: rest =>
    let chosen := match xref_target with
      | some _ => c
      | none => choose_largest c rest
    let e := chosen.1
    let image_rect := chosen.2
    let w0 := match e.info_width with
      | some v => v
      | none => if ocr.width_px ≠ 0 then ocr.width_px else 0
    let h0 := match e.info_height with
      | some v => v
      | none => if ocr.height_px ≠ 0 then ocr.height_px else 0
    let w1 := if w0 = 0 ∨ h0 = 0 then (if ocr.width_px ≠ 0 then ocr.width_px else 0) else w0
    let h1 := if w0 = 0 ∨ h0 = 0 then (if ocr.height_px ≠ 0 then ocr.height_px else 0) else h0
    if w1 = 0 ∨ h1 = 0 then
      match page_dimensions_px ocr settings with
      | .error err => .error err
      | .ok (w, h) =>
        .ok ⟨image_rect, w, h, rotation, some e.xref, "image:xref=" ++ toString e.xref⟩
    else
      .ok ⟨image_rect, w1, h1, rotation, some e.xref, "image:xref=" ++ toString e.xref⟩

/-- Embedding of `overlay._determine_alignment`. -/
def determine_alignment (page : PageModel) (ocr : OCRPage)
    (settings : OverlaySettings) : Except String AlignmentInfo :=
  let rotation := match settings.rotate_override with
    | some r => r
    | none => page.rotation
  match settings.align with
  | .page =>
    match page_dimensions_px ocr settings with
    | .error e => .error e
    | .ok (w, h) => .ok ⟨page.page_rect, w, h, rotation, none, "page"⟩
  | .imageRect rect =>
    match (if ocr.width_px ≠ 0 then .ok ocr.width_px
           else Except.map Prod.fst (page_dimensions_px ocr settings) :
           Except String Rat) with
    | .error e => .error e
    | .ok w =>
      match (if ocr.height_px ≠ 0 then .ok ocr.height_px
             else Except.map Prod.snd (page_dimensions_px ocr settings) :
             Except String Rat) with
      | .error e => .error e
      | .ok h => .ok ⟨rect, w, h, rotation, none, "manual"⟩
  | .auto => determine_from_images page ocr settings none rotation
  | .image t => determine_from_images page ocr settings (some t) rotation

lemma image_candidates_nil (t : Int) :
    ∀ entries : List ImageEntry, (∀ e ∈ entries, e.xref ≠ t) →
      image_candidates (some t) entries = [] := by
  intro entries
  induction entries with
  | nil => intro _; rfl
  | cons e rest ih =>
    intro h
    unfold image_candidates
    rw [List.filterMap_cons]
    have he : ¬ (t = e.xref) := fun ht => h e (List.mem_cons_self e rest) ht.symm
    simp only [if_neg he]
    exact ih (fun q hq => h q (List.mem_cons_of_mem e hq))

/-- C6 (counterexample): the fallback is not raise-free for every OCR
page.  When the requested image reference is absent (here: a page with no
images at all) and the OCR page reports zero pixel dimensions, the
fallback path calls `_page_dimensions_px`, which raises (`width_px=0` is
falsy, and with no DPI configured the missing-dimensions error is
raised) — alignment resolution fails instead of returning a
`page-fallback` result. -/
theorem determine_alignment_missing_dims_raises :
    determine_alignment ⟨⟨0, 0, 595, 842⟩, 0, []⟩ ⟨0, 0, 0, none, [], []⟩
        ⟨.image 7, none, none⟩ =
      .error "OCR JSON missing width/height and --dpi not provided." := rfl

/-- C6 (amended): when the alignment mode requests a specific embedded
image reference and no image with that reference exists on the page,
resolution returns the whole-page rectangle tagged `page-fallback`
without raising — provided the OCR page reports non-zero pixel
dimensions (with zero/missing dimensions the fallback path raises the
missing-dimensions error instead). -/
theorem determine_alignment_image_fallback (page : PageModel) (ocr : OCRPage)
    (settings : OverlaySettings) (t : Int)
    (halign : settings.align = .image t)
    (hmiss : ∀ e ∈ page.images, e.xref ≠ t)
    (hw : ocr.width_px ≠ 0) (hh : ocr.height_px ≠ 0) :
    determine_alignment page ocr settings =
      .ok ⟨page.page_rect, ocr.width_px, ocr.height_px,
        (match settings.rotate_override with
         | some r => r
         | none => page.rotation),
        none, "page-fallback"⟩ := by
  unfold determine_alignment
  rw [halign]
  show determine_from_images page ocr settings (some t) _ = _
  unfold determine_from_images
  rw [image_candidates_nil t page.images hmiss]
  unfold page_dimensions_px
  rw [if_pos ⟨hw, hh⟩]

/-- C6 witness: the fallback theorem applied to a concrete page carrying
one image with xref 5 while xref 7 is requested. -/
theorem determine_alignment_image_fallback_witness :
    determine_alignment
        ⟨⟨0, 0, 595, 842⟩, 90, [⟨5, [⟨0, 0, 100, 100⟩], some 50, some 50⟩]⟩
        ⟨0, 2000, 3000, none, [], []⟩ ⟨.image 7, none, none⟩ =
      .ok ⟨⟨0, 0, 595, 842⟩, 2000, 3000, 90, none, "page-fallback"⟩ :=
  determine_alignment_image_fallback
    ⟨⟨0, 0, 595, 842⟩, 90, [⟨5, [⟨0, 0, 100, 100⟩], some 50, some 50⟩]⟩
    ⟨0, 2000, 3000, none, [], []⟩ ⟨.image 7, none, none⟩ 7 rfl
    (by intro e he
        rw [List.mem_singleton] at he
        subst he
        decide)
    (by decide) (by decide)

/-- C4 witness: the round-trip theorem applied to a concrete one-page
list whose page carries both a word and a line. -/
theorem save_load_roundtrip_witness :
    load_ocr_json (save_ocr_json
        [⟨0, 100, 200, some 0, [⟨"hi", (0, 0, 10, 10)⟩],
          [⟨"hi", (0, 0, 10, 10), [⟨"hi", (0, 0, 10, 10)⟩]⟩]⟩]) =
      .ok [⟨0, 100, 200, some 0, [⟨"hi", (0, 0, 10, 10)⟩],
        [⟨"hi", (0, 0, 10, 10), [⟨"hi", (0, 0, 10, 10)⟩]⟩]⟩] :=
  save_load_roundtrip _ (fun p hp => by
    rw [List.mem_singleton] at hp
    subst hp
    exact ⟨by decide, by decide, fun hcontra => absurd hcontra (by decide)⟩)

end PdfTextOverlay
